import Mathlib

/-!
A verification development for the Trackman-converter repository.

The Python sources are shallowly embedded: JSON values become the
inductive `JVal`, Python floats become exact rationals (IEEE-754 binary
rounding of intermediate values is abstracted away), spreadsheet cells
hold `JVal` values (the empty cell is the empty string, exactly as the
Python code emits `""`), fallible dynamic-typed operations return
`Except PyErr`, and the thread-pool fan-out of the metadata batch
fetcher is modelled by an explicit, arbitrary completion order over
which the theorems quantify.
-/

namespace Trackman

/-- A JSON value, the payload format handled throughout the repository. -/
inductive JVal where
  | null : JVal
  | bool (b : Bool) : JVal
  | num (q : ℚ) : JVal
  | str (s : String) : JVal
  | arr (xs : List JVal) : JVal
  | obj (kvs : List (String × JVal)) : JVal

/-- Python truthiness of a JSON value (`bool(v)`): None, False, 0, `""`,
empty list and empty dict are falsy, everything else truthy. -/
def truthy : JVal → Bool
  | .null => false
  | .bool b => b
  | .num q => decide (q ≠ 0)
  | .str s => decide (s ≠ "")
  | .arr xs => !xs.isEmpty
  | .obj kvs => !kvs.isEmpty

/-- Model of Python `str(v)` for the values that can appear as a club
name. Only the string case is exercised by the claims; the other cases
are total renderings standing in for CPython's repr of the value. -/
def pyStr : JVal → String
  | .str s => s
  | .null => "None"
  | .bool b => if b then "True" else "False"
  | .num q => toString q
  | .arr _ => "[...]"
  | .obj _ => "{...}"

/-- Numeric value of a list of decimal digit characters. -/
def digitsVal (cs : List Char) : ℕ :=
  cs.foldl (fun n c => 10 * n + (c.toNat - 48)) 0

/-- Helper for `parsePyFloat`: parses the exponent tail after `e`/`E`. -/
def parsePyExp (sgn base : ℚ) (t : List Char) : Option ℚ :=
  let p := match t with
    | '+' :: r => ((1 : ℤ), r)
    | '-' :: r => ((-1 : ℤ), r)
    | r => ((1 : ℤ), r)
  let q := p.2.span Char.isDigit
  if q.1.isEmpty || !q.2.isEmpty then none
  else some (sgn * base * (10 : ℚ) ^ (p.1 * (digitsVal q.1 : ℤ)))

/-- Model of `s.strip()`: drops whitespace from both ends. -/
def pyStrip (s : String) : List Char :=
  ((s.toList.dropWhile Char.isWhitespace).reverse.dropWhile Char.isWhitespace).reverse

/-- Model of Python `float(s)` on a string: optional surrounding
whitespace, optional sign, decimal digits with an optional point and an
optional exponent. (Special spellings such as `inf`/`nan` and digit
underscores are outside the model.) Returns `none` where `float` raises. -/
def parsePyFloat (s : String) : Option ℚ :=
  let cs0 := pyStrip s
  let ps := match cs0 with
    | '+' :: t => ((1 : ℚ), t)
    | '-' :: t => ((-1 : ℚ), t)
    | t => ((1 : ℚ), t)
  let pi := ps.2.span Char.isDigit
  let pf := match pi.2 with
    | '.' :: t => t.span Char.isDigit
    | t => (([] : List Char), t)
  let rest := match pi.2 with
    | '.' :: _ => pf.2
    | _ => pi.2
  if pi.1.isEmpty && pf.1.isEmpty then none
  else
    let base : ℚ := (digitsVal pi.1 : ℚ) + (digitsVal pf.1 : ℚ) / (10 : ℚ) ^ pf.1.length
    match rest with
    | [] => some (ps.1 * base)
    | 'e' :: t => parsePyExp ps.1 base t
    | 'E' :: t => parsePyExp ps.1 base t
    | _ => none

/-- Model of Python `float(v)` on an arbitrary value: numbers and bools
coerce, numeric strings parse, everything else raises (`none`). -/
def pyFloat : JVal → Option ℚ
  | .num q => some q
  | .bool b => some (if b then 1 else 0)
  | .str s => parsePyFloat s
  | _ => none

/-- Model of Python `round(x, 2)` over exact rationals: round half to
even at two decimal places. -/
def pyRound2 (q : ℚ) : ℚ :=
  let s := q * 100
  let f : ℤ := ⌊s⌋
  let r := s - (f : ℚ)
  let n : ℤ :=
    if r < 1 / 2 then f
    else if 1 / 2 < r then f + 1
    else if f % 2 = 0 then f else f + 1
  (n : ℚ) / 100

/-- Embedding of `_conv` (converter.py, lines 41-48): `None` becomes the
empty string, a coercible value becomes `round(float(v) * factor, 2)` as
a real number, anything else becomes the empty string. -/
def _conv (v : JVal) (factor : ℚ) : JVal :=
  match v with
  | .null => .str ""
  | v =>
    match pyFloat v with
    | some x => .num (pyRound2 (x * factor))
    | none => .str ""

/-- A parsed timestamp, the fields `datetime.fromisoformat` yields that
`strftime("%Y-%m-%d %H:%M:%S")` renders (timezone offset is validated
but not retained, exactly as the rendering ignores it). -/
structure DT where
  year : ℕ
  month : ℕ
  day : ℕ
  hour : ℕ
  minute : ℕ
  second : ℕ
deriving DecidableEq

/-- Gregorian leap-year test. -/
def isLeap (y : ℕ) : Bool :=
  y % 4 == 0 && (y % 100 != 0 || y % 400 == 0)

/-- Number of days in a month of a given year. -/
def daysInMonth (y m : ℕ) : ℕ :=
  if m = 2 then (if isLeap y then 29 else 28)
  else if m = 4 ∨ m = 6 ∨ m = 9 ∨ m = 11 then 30
  else 31

/-- Two decimal digit characters as a number, if both are digits. -/
def twoDigits (a b : Char) : Option ℕ :=
  if a.isDigit && b.isDigit then some (10 * (a.toNat - 48) + (b.toNat - 48)) else none

/-- Consumes an optional fractional part `.d{1,6}`, returning the rest. -/
def fracSplit : List Char → Option (List Char)
  | '.' :: t =>
    let p := t.span Char.isDigit
    if 1 ≤ p.1.length ∧ p.1.length ≤ 6 then some p.2 else none
  | t => some t

/-- Validity of the tail of a UTC offset after `±HH:MM`. -/
def offTail : List Char → Bool
  | [] => true
  | ':' :: s1 :: s2 :: rest =>
    match twoDigits s1 s2 with
    | some ss =>
      decide (ss < 60) &&
        (match fracSplit rest with
         | some [] => true
         | _ => false)
    | none => false
  | _ => false

/-- Validity of a whole trailing UTC offset (`±HH:MM[:SS[.ffffff]]`) or
of an absent one. -/
def offsetOk : List Char → Bool
  | [] => true
  | sc :: h1 :: h2 :: ':' :: m1 :: m2 :: rest =>
    (sc == '+' || sc == '-') &&
      (match twoDigits h1 h2, twoDigits m1 m2 with
       | some oh, some om => decide (oh < 24 ∧ om < 60) && offTail rest
       | _, _ => false)
  | _ => false

/-- Parses the time-of-day part of an ISO-8601 string,
`HH[:MM[:SS[.ffffff]]][±HH:MM[:SS]]`, after the date and separator. -/
def parseTimePart (y mo dy : ℕ) : List Char → Option DT
  | h1 :: h2 :: rest =>
    match twoDigits h1 h2 with
    | some hh =>
      if hh < 24 then
        match rest with
        | [] => some ⟨y, mo, dy, hh, 0, 0⟩
        | ':' :: mi1 :: mi2 :: rest2 =>
          match twoDigits mi1 mi2 with
          | some mm =>
            if mm < 60 then
              match rest2 with
              | ':' :: s1 :: s2 :: rest3 =>
                match twoDigits s1 s2 with
                | some ss =>
                  if ss < 60 then
                    match fracSplit rest3 with
                    | some r => if offsetOk r then some ⟨y, mo, dy, hh, mm, ss⟩ else none
                    | none => none
                  else none
                | none => none
              | r => if offsetOk r then some ⟨y, mo, dy, hh, mm, 0⟩ else none
            else none
          | none => none
        | r => if offsetOk r then some ⟨y, mo, dy, hh, 0, 0⟩ else none
      else none
    | none => none
  | _ => none

/-- Model of `datetime.fromisoformat`: `YYYY-MM-DD` optionally followed
by a one-character separator and a time-of-day with optional fraction
and UTC offset, with calendar-validity checks. Returns `none` where the
library raises `ValueError`. -/
def parseIso (s : String) : Option DT :=
  match s.toList with
  | y1 :: y2 :: y3 :: y4 :: '-' :: m1 :: m2 :: '-' :: d1 :: d2 :: rest =>
    match twoDigits y1 y2, twoDigits y3 y4, twoDigits m1 m2, twoDigits d1 d2 with
    | some yh, some yl, some mo, some dy =>
      let y := 100 * yh + yl
      if 1 ≤ y ∧ 1 ≤ mo ∧ mo ≤ 12 ∧ 1 ≤ dy ∧ dy ≤ daysInMonth y mo then
        match rest with
        | [] => some ⟨y, mo, dy, 0, 0, 0⟩
        | _ :: t => parseTimePart y mo dy t
      else none
    | _, _, _, _ => none
  | _ => none

/-- Zero-pads a number to two digits. -/
def pad2 (n : ℕ) : String :=
  if n < 10 then "0" ++ toString n else toString n

/-- Zero-pads a number to four digits. -/
def pad4 (n : ℕ) : String :=
  if n < 10 then "000" ++ toString n
  else if n < 100 then "00" ++ toString n
  else if n < 1000 then "0" ++ toString n
  else toString n

/-- Model of `dt.strftime("%Y-%m-%d %H:%M:%S")`. -/
def renderDT (dt : DT) : String :=
  pad4 dt.year ++ "-" ++ pad2 dt.month ++ "-" ++ pad2 dt.day ++ " " ++
    pad2 dt.hour ++ ":" ++ pad2 dt.minute ++ ":" ++ pad2 dt.second

/-- Model of `s.replace("Z", "+00:00")`: every occurrence of the
one-character pattern is substituted. -/
def replaceZ (s : String) : String :=
  String.mk (s.toList.flatMap (fun c => if c = 'Z' then "+00:00".toList else [c]))

/-- Embedding of `_fmt_time` (converter.py, lines 31-38): empty stays
empty, a parsable ISO-8601 string (every `"Z"` first replaced by
`"+00:00"`) is re-rendered, and any unparsable string is returned
verbatim. -/
def _fmt_time (iso : String) : String :=
  if iso = "" then ""
  else
    match parseIso (replaceZ iso) with
    | some dt => renderDT dt
    | none => iso

/-- The `"Time"` cell of a row: `m.get("Time", "")` fed through
`_fmt_time`. A non-string truthy value raises inside the `try` when
`.replace` is attempted and is returned verbatim by the `except`
branch; a falsy value returns `""`. -/
def timeVal : JVal → JVal
  | .str s => .str (_fmt_time s)
  | v => if truthy v then v else .str ""

/-- A measurement dictionary: keys to JSON values. -/
abbrev MDict := List (String × JVal)

/-- A produced display row: column labels to cell values. -/
abbrev Row := List (String × JVal)

/-- Model of `m.get(k)`: the stored value, `None` when the key is
absent. -/
def mGet (m : MDict) (k : String) : JVal :=
  (List.lookup k m).getD .null

/-- The fixed 31-column schema (converter.py, lines 14-28). -/
def COLUMNS : List String := [
  "Time",
  "Club Speed (Mph)", "Ball Speed (Mph)", "Smash Factor",
  "Carry (Yds)", "Total (Yds)",
  "Impact Height (mm)", "Impact Offset (mm)",
  "Club Path (Deg)", "Face Angle (Deg)", "Face To Path (Deg)",
  "Launch Direction (Deg)", "Attack Angle (Deg)",
  "Dynamic Loft (Deg)", "Launch Angle (Deg)", "Spin Loft (Deg)",
  "Spin Rate (Rpm)", "Spin Axis (Deg)",
  "Curve (Ft)", "Carry Side (Ft)", "Total Side (Ft)",
  "Max Height (Ft)", "Landing Angle (Deg)",
  "Swing Direction (Deg)", "Swing Plane (Deg)", "Swing Radius",
  "DPlane Tilt", "Low Point (In)", "Landing Height", "Hang Time (Sec)",
  "Dynamic Lie (Deg)"]

/-- Embedding of `convert_measurement_to_row` (converter.py, lines
51-86). The argument is `None` or a dictionary; a falsy argument yields
all-empty cells, otherwise each column is `_conv` of its source field
with its fixed factor (the `"Time"` column goes through `_fmt_time`). -/
def convert_measurement_to_row (m : Option MDict) : Row :=
  match m with
  | none => COLUMNS.map (fun k => (k, JVal.str ""))
  | some [] => COLUMNS.map (fun k => (k, JVal.str ""))
  | some l => [
    ("Time", timeVal ((List.lookup "Time" l).getD (.str ""))),
    ("Club Speed (Mph)", _conv (mGet l "ClubSpeed") 2.23694),
    ("Ball Speed (Mph)", _conv (mGet l "BallSpeed") 2.23694),
    ("Smash Factor", _conv (mGet l "SmashFactor") 1),
    ("Carry (Yds)", _conv (mGet l "Carry") 1.09361),
    ("Total (Yds)", _conv (mGet l "Total") 1.09361),
    ("Impact Height (mm)", _conv (mGet l "ImpactHeight") 1000),
    ("Impact Offset (mm)", _conv (mGet l "ImpactOffset") 1000),
    ("Club Path (Deg)", _conv (mGet l "ClubPath") 1),
    ("Face Angle (Deg)", _conv (mGet l "FaceAngle") 1),
    ("Face To Path (Deg)", _conv (mGet l "FaceToPath") 1),
    ("Launch Direction (Deg)", _conv (mGet l "LaunchDirection") 1),
    ("Attack Angle (Deg)", _conv (mGet l "AttackAngle") 1),
    ("Dynamic Loft (Deg)", _conv (mGet l "DynamicLoft") 1),
    ("Launch Angle (Deg)", _conv (mGet l "LaunchAngle") 1),
    ("Spin Loft (Deg)", _conv (mGet l "SpinLoft") 1),
    ("Spin Rate (Rpm)", _conv (mGet l "SpinRate") 1),
    ("Spin Axis (Deg)", _conv (mGet l "SpinAxis") 1),
    ("Curve (Ft)", _conv (mGet l "Curve") 3.28084),
    ("Carry Side (Ft)", _conv (mGet l "CarrySide") 3.28084),
    ("Total Side (Ft)", _conv (mGet l "TotalSide") 3.28084),
    ("Max Height (Ft)", _conv (mGet l "MaxHeight") 3.28084),
    ("Landing Angle (Deg)", _conv (mGet l "LandingAngle") 1),
    ("Swing Direction (Deg)", _conv (mGet l "SwingDirection") 1),
    ("Swing Plane (Deg)", _conv (mGet l "SwingPlane") 1),
    ("Swing Radius", _conv (mGet l "SwingRadius") 1),
    ("DPlane Tilt", _conv (mGet l "DPlaneTilt") 1),
    ("Low Point (In)", _conv (mGet l "LowPointDistance") 39.3701),
    ("Landing Height", _conv (mGet l "LandingHeight") 1),
    ("Hang Time (Sec)", _conv (mGet l "HangTime") 1),
    ("Dynamic Lie (Deg)", _conv (mGet l "DynamicLie") 1)]

/-- The source field and conversion factor of each numeric column, in
schema order (everything except `"Time"`). -/
def colSpec : List (String × String × ℚ) := [
  ("Club Speed (Mph)", "ClubSpeed", 2.23694),
  ("Ball Speed (Mph)", "BallSpeed", 2.23694),
  ("Smash Factor", "SmashFactor", 1),
  ("Carry (Yds)", "Carry", 1.09361),
  ("Total (Yds)", "Total", 1.09361),
  ("Impact Height (mm)", "ImpactHeight", 1000),
  ("Impact Offset (mm)", "ImpactOffset", 1000),
  ("Club Path (Deg)", "ClubPath", 1),
  ("Face Angle (Deg)", "FaceAngle", 1),
  ("Face To Path (Deg)", "FaceToPath", 1),
  ("Launch Direction (Deg)", "LaunchDirection", 1),
  ("Attack Angle (Deg)", "AttackAngle", 1),
  ("Dynamic Loft (Deg)", "DynamicLoft", 1),
  ("Launch Angle (Deg)", "LaunchAngle", 1),
  ("Spin Loft (Deg)", "SpinLoft", 1),
  ("Spin Rate (Rpm)", "SpinRate", 1),
  ("Spin Axis (Deg)", "SpinAxis", 1),
  ("Curve (Ft)", "Curve", 3.28084),
  ("Carry Side (Ft)", "CarrySide", 3.28084),
  ("Total Side (Ft)", "TotalSide", 3.28084),
  ("Max Height (Ft)", "MaxHeight", 3.28084),
  ("Landing Angle (Deg)", "LandingAngle", 1),
  ("Swing Direction (Deg)", "SwingDirection", 1),
  ("Swing Plane (Deg)", "SwingPlane", 1),
  ("Swing Radius", "SwingRadius", 1),
  ("DPlane Tilt", "DPlaneTilt", 1),
  ("Low Point (In)", "LowPointDistance", 39.3701),
  ("Landing Height", "LandingHeight", 1),
  ("Hang Time (Sec)", "HangTime", 1),
  ("Dynamic Lie (Deg)", "DynamicLie", 1)]

/-- Reads a cell of a row by column label (empty for an absent label). -/
def rowGet (r : Row) (c : String) : JVal :=
  (List.lookup c r).getD (.str "")

/-- Model of `pd.to_numeric(v, errors="coerce")` on one cell: numbers
and bools stay numeric, numeric strings parse, everything else becomes
NaN (`none`). -/
def toNum : JVal → Option ℚ
  | .num q => some q
  | .bool b => some (if b then 1 else 0)
  | .str s => parsePyFloat s
  | _ => none

/-- A row of the numeric dataframe `df_num`: every schema column mapped
to its coerced value (NaN is `none`). -/
abbrev NRow := List (String × Option ℚ)

/-- Builds the dataframe row for a dict row: `pd.DataFrame(rows,
columns=COLUMNS)` keeps exactly the schema columns (missing keys become
NaN), and `pd.to_numeric(..., errors="coerce")` coerces each cell. -/
def coerceRow (r : Row) : NRow :=
  COLUMNS.map (fun c => (c, (List.lookup c r).bind toNum))

/-- Reads a coerced cell by column label (NaN for an absent label). -/
def nGet (r : NRow) (c : String) : Option ℚ :=
  (List.lookup c r).getD none

/-- Comparison of a possibly-NaN value against a lower bound: any
comparison against NaN is false in Python. -/
def geOk (x : Option ℚ) (b : ℚ) : Bool :=
  match x with
  | some v => decide (b ≤ v)
  | none => false

/-- Absolute-value bound check on a possibly-NaN value. -/
def absLe (x : Option ℚ) (b : ℚ) : Bool :=
  match x with
  | some v => decide (|v| ≤ b)
  | none => false

/-- Embedding of the `qualifies` predicate inside `append_best_swings`
(converter.py, lines 174-184). -/
def qualifies (r : NRow) : Bool :=
  geOk (nGet r "Smash Factor") 1.45 &&
  absLe (nGet r "Impact Height (mm)") 10 &&
  absLe (nGet r "Impact Offset (mm)") 10 &&
  absLe (nGet r "Club Path (Deg)") 4 &&
  absLe (nGet r "Face Angle (Deg)") 2

/-- Absolute value of a possibly-NaN cell; NaN contributes zero, as in
`DataFrame.abs().sum(axis=1)` with the default `skipna`. -/
def absOrZero : Option ℚ → ℚ
  | some v => |v|
  | none => 0

/-- The deviation of a qualifying row: the sum of absolute values of
the four impact and path metrics (converter.py, lines 211-214). -/
def distRow (r : NRow) : ℚ :=
  absOrZero (nGet r "Impact Height (mm)") + absOrZero (nGet r "Impact Offset (mm)") +
    absOrZero (nGet r "Club Path (Deg)") + absOrZero (nGet r "Face Angle (Deg)")

/-- The minimum of a list of rationals (zero on the empty list, which
is never consulted). -/
def listMin : List ℚ → ℚ
  | [] => 0
  | [x] => x
  | x :: y :: t => min x (listMin (y :: t))

/-- The index of the first occurrence of the minimum of a list, the
behaviour of `Series.idxmin` composed with `list.index`. -/
def idxminPos : List ℚ → ℕ
  | [] => 0
  | [_] => 0
  | x :: y :: t => if x ≤ listMin (y :: t) then 0 else idxminPos (y :: t) + 1

/-- Embedding of `append_best_swings` (converter.py, lines 166-228) at
the data level: given the sheet's converted rows, returns `none` when no
sub-section is written (empty dataframe or no qualifying rows), and
otherwise the qualifying rows that are appended together with the
offset, within them, of the single row that receives the blue border. -/
def append_best_swings (rows : List Row) : Option (List NRow × ℕ) :=
  if rows.isEmpty then none
  else
    let q := (rows.map coerceRow).filter qualifies
    if q.isEmpty then none
    else some (q, idxminPos (q.map distRow))

/-- A dynamic-typing error raised by the Python runtime. -/
inductive PyErr where
  | attrError : PyErr
  | typeError : PyErr
deriving DecidableEq

/-- Model of `v.get(k, d)`: dictionary lookup with a default, an
`AttributeError` on any non-dictionary. -/
def objGetD (v : JVal) (k : String) (d : JVal) : Except PyErr JVal :=
  match v with
  | .obj kvs => .ok ((List.lookup k kvs).getD d)
  | _ => .error .attrError

/-- Model of `v or []`: the value itself if truthy, else the empty
list. -/
def orEmptyList (v : JVal) : JVal :=
  if truthy v then v else .arr []

/-- Model of Python iteration over a value: lists yield their elements,
strings their characters, dictionaries their keys; other values raise
`TypeError`. -/
def pyIter : JVal → Except PyErr (List JVal)
  | .arr xs => .ok xs
  | .str s => .ok (s.toList.map (fun c => .str (String.singleton c)))
  | .obj kvs => .ok (kvs.map (fun p => .str p.1))
  | _ => .error .typeError

/-- One sheet of the produced workbook: its title, the data rows laid
out from the group's dataframe (header and styling abstracted), the
message cell of the placeholder sheet if any, and the best-swings
sub-section if one was appended. -/
structure Sheet where
  title : String
  rows : List Row
  note : Option String
  best : Option (List NRow × ℕ)

/-- The usable rows of one group: the loop body of lines 242-246 of
converter.py over the strokes, collecting `convert_measurement_to_row`
of every `Measurement` that is a dictionary, raising on malformed
strokes. -/
def strokeRows : List JVal → Except PyErr (List Row)
  | [] => .ok []
  | s :: rest =>
    match objGetD s "Measurement" .null with
    | .error e => .error e
    | .ok (.obj kvs) => (strokeRows rest).map (fun rs => convert_measurement_to_row (some kvs) :: rs)
    | .ok _ => strokeRows rest

/-- The sheet created for one group: always created and titled with the
club name truncated to 31 characters; left empty when the group has no
usable rows (the `continue` at line 249 skips the data, the header, and
the best-swings call but not the sheet's creation). -/
def mkGroupSheet (club : String) (rows : List Row) : Sheet :=
  if rows.isEmpty then ⟨club.take 31, [], none, none⟩
  else ⟨club.take 31, rows, none, append_best_swings rows⟩

/-- The loop body of `build_workbook_per_club` for one group
(converter.py, lines 238-259). -/
def groupSheet (g : JVal) : Except PyErr Sheet :=
  match objGetD g "Club" (.str "Unknown Club") with
  | .error e => .error e
  | .ok clubV =>
    match objGetD g "Strokes" (.arr []) with
    | .error e => .error e
    | .ok strokesV =>
      match pyIter (orEmptyList strokesV) with
      | .error e => .error e
      | .ok strokes =>
        match strokeRows strokes with
        | .error e => .error e
        | .ok rows => .ok (mkGroupSheet (pyStr clubV) rows)

/-- The placeholder sheet written when no usable measurement exists
anywhere (converter.py, lines 274-275). -/
def placeholderSheet : Sheet :=
  ⟨"Trackman Report", [], some "No StrokeGroups found in the JSON.", none⟩

/-- The `for g in stroke_groups` loop of `build_workbook_per_club`:
one sheet per group in order, stopping at the first dynamic-typing
error. -/
def buildSheets : List JVal → Except PyErr (List Sheet)
  | [] => .ok []
  | g :: rest =>
    match groupSheet g with
    | .error e => .error e
    | .ok s =>
      match buildSheets rest with
      | .error e => .error e
      | .ok ss => .ok (s :: ss)

/-- Embedding of `build_workbook_per_club` (converter.py, lines
231-277): one sheet per stroke group in order, then either an
`"All Data"` sheet over every collected row or the placeholder sheet;
dynamic-typing errors on malformed payloads propagate as exceptions. -/
def build_workbook_per_club (data : JVal) : Except PyErr (List Sheet) :=
  match objGetD data "StrokeGroups" (.arr []) with
  | .error e => .error e
  | .ok sgV =>
    match pyIter (orEmptyList sgV) with
    | .error e => .error e
    | .ok groups =>
      match buildSheets groups with
      | .error e => .error e
      | .ok sheets =>
        let allRows := (sheets.map Sheet.rows).flatten
        if allRows.isEmpty then .ok (sheets ++ [placeholderSheet])
        else .ok (sheets ++ [⟨"All Data", allRows, none, none⟩])

/-- Recognizes a dictionary value. -/
def isObjB : JVal → Bool
  | .obj _ => true
  | _ => false

/-- Well-formedness of one stroke group as far as the loop body is
concerned: a dictionary whose `Strokes` value is falsy or is a list of
dictionaries. Groups outside this shape make the Python loop raise. -/
def wfGroup : JVal → Bool
  | .obj kvs =>
    (let v := (List.lookup "Strokes" kvs).getD (.arr [])
     if truthy v then
       match v with
       | .arr ss => ss.all isObjB
       | _ => false
     else true)
  | _ => false

/-- The club value of a well-formed group. -/
def clubValOf (g : JVal) : JVal :=
  match g with
  | .obj kvs => (List.lookup "Club" kvs).getD (.str "Unknown Club")
  | _ => .str "Unknown Club"

/-- The strokes list of a well-formed group. -/
def strokesOf (g : JVal) : List JVal :=
  match g with
  | .obj kvs =>
    (let v := (List.lookup "Strokes" kvs).getD (.arr [])
     if truthy v then
       match v with
       | .arr ss => ss
       | _ => []
     else [])
  | _ => []

/-- The converted row a stroke contributes, when its `Measurement` is a
dictionary. -/
def usableOfStroke (s : JVal) : Option Row :=
  match s with
  | .obj skvs =>
    match (List.lookup "Measurement" skvs).getD .null with
    | .obj mk => some (convert_measurement_to_row (some mk))
    | _ => none
  | _ => none

/-- The converted usable rows of a well-formed group: one display row
per stroke whose `Measurement` is a dictionary. -/
def usableRows (g : JVal) : List Row :=
  (strokesOf g).filterMap usableOfStroke

/-- The sheet a well-formed group contributes. -/
def sheetOfGroup (g : JVal) : Sheet :=
  mkGroupSheet (pyStr (clubValOf g)) (usableRows g)

/-- Recognizes the placeholder sheet by its message cell. -/
def isPlaceholder (s : Sheet) : Bool :=
  s.note.isSome

/-- The titles of the sheets of a successfully built workbook. -/
def sheetTitles (e : Except PyErr (List Sheet)) : List String :=
  match e with
  | .ok ss => ss.map Sheet.title
  | .error _ => []

/-- The data-row counts of the sheets of a successfully built
workbook. -/
def sheetRowCounts (e : Except PyErr (List Sheet)) : List ℕ :=
  match e with
  | .ok ss => ss.map (fun s => s.rows.length)
  | .error _ => []

/-- A report candidate discovered in the browser history: identifier,
source URL and last-visit time (trackman_api.py, lines 146-155). -/
structure Cand where
  id : String
  url : String
  time : ℕ
deriving DecidableEq

/-- The deduplication loop of `TrackmanApp.handle_cloud`
(trackman_gui_app_v2.py, lines 333-340): walks the candidates in order,
keeping a candidate exactly when its identifier is truthy and not yet
seen, and recording kept identifiers. -/
def dedupAux (seen : List String) : List Cand → List Cand
  | [] => []
  | r :: rest =>
    if r.id ≠ "" ∧ r.id ∉ seen then r :: dedupAux (r.id :: seen) rest
    else dedupAux seen rest

/-- Embedding of the candidate deduplication of
`TrackmanApp.handle_cloud`, starting from an empty `seen` set. -/
def handle_cloud_dedup (rs : List Cand) : List Cand :=
  dedupAux [] rs

/-- The specification's description of deduplication, written from its
words: keep each first occurrence of an identifier, removing every
later candidate with the same identifier, preserving order. -/
def firstOccs : List Cand → List Cand
  | [] => []
  | r :: rest => r :: firstOccs (rest.filter (fun x => x.id ≠ r.id))
termination_by l => l.length
decreasing_by
  simp only [List.length_cons]
  exact Nat.lt_succ_of_le (List.length_filter_le _ _)

/-- The metadata record built by `fetch_report_metadata`
(trackman_api.py, lines 179-183). -/
structure ReportMeta where
  mid : String
  created : JVal
  kind : JVal

/-- Embedding of `fetch_report_metadata` (trackman_api.py, lines
166-185). The network is an oracle from report identifier to response:
`none` models a raised exception or timeout; a non-200 status or a
non-dictionary body (whose `.get` raises inside the `try`) also yields
`none`; otherwise the metadata record is built, with `created` the
first truthy of `Time` and `Updated`. -/
def fetch_report_metadata (net : String → Option (ℕ × JVal)) (report_id : String) :
    Option ReportMeta :=
  match net report_id with
  | none => none
  | some (st, body) =>
    if st ≠ 200 then none
    else
      match body with
      | .obj kvs =>
        some ⟨report_id,
          (let t := (List.lookup "Time" kvs).getD .null
           if truthy t then t else (List.lookup "Updated" kvs).getD .null),
          (List.lookup "Kind" kvs).getD .null⟩
      | _ => none

/-- The result-collection loop of `fetch_report_metadata_batch`
(trackman_api.py, lines 205-213): each completed future writes its own
result into the slot of its original index. -/
def batchUpdate (f : ℕ → Option ReportMeta) (res : List (Option ReportMeta))
    (order : List ℕ) : List (Option ReportMeta) :=
  order.foldl (fun acc idx => acc.set idx (f idx)) res

/-- Embedding of `fetch_report_metadata_batch` (trackman_api.py, lines
188-215). One future per identifier is submitted; `order` is the
sequence in which `as_completed` yields them, over which the theorems
quantify; results start as a `None`-filled list of the input length and
are written back by original index. -/
def fetch_report_metadata_batch (net : String → Option (ℕ × JVal)) (ids : List String)
    (order : List ℕ) : List (Option ReportMeta) :=
  batchUpdate
    (fun idx =>
      match ids[idx]? with
      | some rid => fetch_report_metadata net rid
      | none => none)
    (List.replicate ids.length none) order

/-- An HTTP response as seen by `download_report`: status code, body
text, and the parsed JSON body. -/
structure HttpResp where
  status : ℕ
  text : String
  body : JVal

/-- A flat file system: paths to written JSON payloads (`json.dump` of
the payload is modelled by storing the payload itself). -/
abbrev FS := List (String × JVal)

/-- Writes a file, overwriting any prior entry at the same path. -/
def fsWrite (fs : FS) (path : String) (v : JVal) : FS :=
  (path, v) :: fs.filter (fun p => !(p.1 == path))

/-- Reads a file. -/
def fsRead (fs : FS) (path : String) : Option JVal :=
  List.lookup path fs

/-- Embedding of `download_report` (trackman_api.py, lines 16-54): on
HTTP 200 the full JSON payload is written to
`trackman_full_report.json` and that path is returned; on any other
status an exception carrying the status code and the body text is
raised and the file system is left untouched. -/
def download_report (resp : HttpResp) (fs : FS) : Except String String × FS :=
  if resp.status = 200 then
    (.ok "trackman_full_report.json", fsWrite fs "trackman_full_report.json" resp.body)
  else
    (.error ("Error " ++ toString resp.status ++ ": " ++ resp.text), fs)

lemma _conv_null (f : ℚ) : _conv .null f = .str "" := rfl

lemma _conv_num (x f : ℚ) : _conv (.num x) f = .num (pyRound2 (x * f)) := rfl

lemma _conv_cases (v : JVal) (f : ℚ) : _conv v f = .str "" ∨ ∃ q, _conv v f = .num q := by
  cases v with
  | null => exact Or.inl rfl
  | bool b => rcases h : pyFloat (.bool b) with _ | x <;> simp [_conv, h]
  | num q => exact Or.inr ⟨pyRound2 (q * f), rfl⟩
  | str s => rcases h : pyFloat (.str s) with _ | x <;> simp [_conv, h]
  | arr xs => exact Or.inl rfl
  | obj kvs => exact Or.inl rfl

lemma _conv_pyFloat_none {v : JVal} {f : ℚ} (h : pyFloat v = none) : _conv v f = .str "" := by
  cases v <;> simp_all [_conv, pyFloat]

lemma lookup_const_getD (ks : List String) (c : String) :
    (List.lookup c (ks.map (fun k => (k, JVal.str "")))).getD (.str "") = .str "" := by
  induction ks with
  | nil => rfl
  | cons k t ih =>
    simp only [List.map_cons, List.lookup]
    cases h : c == k <;> simp [h, ih]

lemma rowGet_emptyRow (c : String) :
    rowGet (COLUMNS.map (fun k => (k, JVal.str ""))) c = .str "" :=
  lookup_const_getD COLUMNS c

lemma convert_map_fst (m : Option MDict) :
    (convert_measurement_to_row m).map Prod.fst = COLUMNS := by
  rcases m with _ | (_ | ⟨a, t⟩) <;> rfl

lemma convert_cons_eq (a : String × JVal) (t : MDict) :
    convert_measurement_to_row (some (a :: t)) =
      ("Time", timeVal ((List.lookup "Time" (a :: t)).getD (.str ""))) ::
        colSpec.map (fun ck => (ck.1, _conv (mGet (a :: t) ck.2.1) ck.2.2)) := rfl

lemma rowGet_conv (a : String × JVal) (t : MDict) :
    ∀ ck ∈ colSpec,
      rowGet (convert_measurement_to_row (some (a :: t))) ck.1 =
        _conv (mGet (a :: t) ck.2.1) ck.2.2 := by
  intro ck hck
  fin_cases hck <;> rfl

lemma rowGet_time (a : String × JVal) (t : MDict) :
    rowGet (convert_measurement_to_row (some (a :: t))) "Time" =
      timeVal ((List.lookup "Time" (a :: t)).getD (.str "")) := rfl

/-- Claim C5: for every valid Measurement record,
`convert_measurement_to_row` produces exactly 31 columns in the fixed
schema order; every numeric (non-`Time`) column holds a real numeric
value or an empty cell, never a nonempty string; and every column whose
source field is missing or null holds an empty cell. -/
theorem c5_theorem :
    (∀ m : Option MDict, (convert_measurement_to_row m).map Prod.fst = COLUMNS) ∧
    COLUMNS.length = 31 ∧
    (∀ (m : Option MDict) (p : String × JVal), p ∈ convert_measurement_to_row m →
      p.1 ≠ "Time" → p.2 = .str "" ∨ ∃ q, p.2 = .num q) ∧
    (∀ (l : MDict) (ck : String × String × ℚ), ck ∈ colSpec → mGet l ck.2.1 = .null →
      rowGet (convert_measurement_to_row (some l)) ck.1 = .str "") ∧
    (∀ l : MDict, List.lookup "Time" l = none ∨ List.lookup "Time" l = some .null →
      rowGet (convert_measurement_to_row (some l)) "Time" = .str "") := by
  refine ⟨convert_map_fst, rfl, ?_, ?_, ?_⟩
  · intro m p hp hT
    rcases m with _ | (_ | ⟨a, t⟩)
    · simp only [convert_measurement_to_row, List.mem_map] at hp
      obtain ⟨k, _, rfl⟩ := hp
      exact Or.inl rfl
    · simp only [convert_measurement_to_row, List.mem_map] at hp
      obtain ⟨k, _, rfl⟩ := hp
      exact Or.inl rfl
    · rw [convert_cons_eq] at hp
      rcases List.mem_cons.mp hp with h | h
      · exact absurd (congrArg Prod.fst h) hT
      · obtain ⟨ck, _, rfl⟩ := List.mem_map.mp h
        exact _conv_cases _ _
  · intro l ck hck hnull
    rcases l with _ | ⟨a, t⟩
    · exact rowGet_emptyRow ck.1
    · rw [rowGet_conv a t ck hck, hnull]; exact _conv_null _
  · intro l hl
    rcases l with _ | ⟨a, t⟩
    · exact rowGet_emptyRow "Time"
    · rw [rowGet_time]
      rcases hl with h | h <;> rw [h] <;> rfl

/-- Claim C5 witness: a concrete measurement with a null field yields
an empty cell in the corresponding column, and the row of a concrete
measurement carries the 31 schema keys in order. -/
theorem c5_witness :
    (("Spin Rate (Rpm)", "SpinRate", (1 : ℚ)) ∈ colSpec ∧
      mGet [("SpinRate", JVal.null), ("BallSpeed", JVal.num 50)] "SpinRate" = .null ∧
      rowGet (convert_measurement_to_row
        (some [("SpinRate", JVal.null), ("BallSpeed", JVal.num 50)])) "Spin Rate (Rpm)" = .str "") ∧
    (convert_measurement_to_row (some [("BallSpeed", JVal.num 50)])).map Prod.fst = COLUMNS := by
  have hmem : ("Spin Rate (Rpm)", "SpinRate", (1 : ℚ)) ∈ colSpec := by
    simp [colSpec]
  refine ⟨⟨hmem, rfl, c5_theorem.2.2.2.1 _ _ hmem rfl⟩, c5_theorem.1 _⟩

/-- Claim C6: a Measurement whose raw `BallSpeed` field holds a numeric
value V (metres per second) gets `round(V * 2.23694, 2)` in the
`"Ball Speed (Mph)"` column. -/
theorem c6_theorem (V : ℚ) (l : MDict)
    (h : List.lookup "BallSpeed" l = some (.num V)) :
    rowGet (convert_measurement_to_row (some l)) "Ball Speed (Mph)" =
      .num (pyRound2 (V * 2.23694)) := by
  rcases l with _ | ⟨a, t⟩
  · simp at h
  · have hmem : ("Ball Speed (Mph)", "BallSpeed", (2.23694 : ℚ)) ∈ colSpec := by
      simp [colSpec]
    rw [rowGet_conv a t _ hmem]
    show _conv (mGet (a :: t) "BallSpeed") 2.23694 = _
    rw [mGet, h]
    rfl

/-- Claim C6 witness: a concrete ball speed of 50 m/s lands in the
`"Ball Speed (Mph)"` column as `round(50 * 2.23694, 2)`. -/
theorem c6_witness :
    List.lookup "BallSpeed" [("BallSpeed", JVal.num 50)] = some (JVal.num 50) ∧
    rowGet (convert_measurement_to_row (some [("BallSpeed", JVal.num 50)]))
        "Ball Speed (Mph)" = .num (pyRound2 (50 * 2.23694)) :=
  ⟨rfl, c6_theorem 50 [("BallSpeed", JVal.num 50)] rfl⟩

/-- Claim C7: `_fmt_time` maps the empty string to the empty string,
renders any string that parses as ISO-8601 (a `"Z"` being first
rewritten to the UTC offset `"+00:00"`) as `"YYYY-MM-DD HH:MM:SS"`, and
returns any unparsable string verbatim; being a total function of the
embedding it raises nothing. -/
theorem c7_theorem :
    _fmt_time "" = "" ∧
    (∀ s : String, s ≠ "" → parseIso (replaceZ s) = none → _fmt_time s = s) ∧
    (∀ (s : String) (dt : DT), parseIso (replaceZ s) = some dt → _fmt_time s = renderDT dt) ∧
    _fmt_time "2024-03-05T14:30:15Z" = "2024-03-05 14:30:15" ∧
    _fmt_time "not a timestamp" = "not a timestamp" := by
  refine ⟨rfl, ?_, ?_, by decide, by decide⟩
  · intro s hs hp
    rw [_fmt_time, if_neg hs, hp]
  · intro s dt hp
    by_cases hs : s = ""
    · subst hs; simp [replaceZ] at hp
      exact absurd hp (by simp [parseIso])
    · rw [_fmt_time, if_neg hs, hp]

/-- Claim C7 witness: the fail-soft branches applied at concrete
strings via the theorem. -/
theorem c7_witness :
    ("nope" ≠ "" ∧ parseIso (replaceZ "nope") = none ∧ _fmt_time "nope" = "nope") ∧
    (parseIso (replaceZ "2023-12-31T23:59:59Z") = some ⟨2023, 12, 31, 23, 59, 59⟩ ∧
      _fmt_time "2023-12-31T23:59:59Z" = renderDT ⟨2023, 12, 31, 23, 59, 59⟩) :=
  ⟨⟨by decide, rfl, c7_theorem.2.1 "nope" (by decide) rfl⟩,
   ⟨rfl, c7_theorem.2.2.1 "2023-12-31T23:59:59Z" ⟨2023, 12, 31, 23, 59, 59⟩ rfl⟩⟩

lemma fsRead_write_self (fs : FS) (p : String) (v : JVal) :
    fsRead (fsWrite fs p v) p = some v := by
  simp [fsRead, fsWrite, List.lookup]

lemma lookup_filter_ne (fs : FS) (p q : String) (h : q ≠ p) :
    List.lookup q (fs.filter (fun kv => !(kv.1 == p))) = List.lookup q fs := by
  induction fs with
  | nil => rfl
  | cons kv t ih =>
    obtain ⟨k1, v1⟩ := kv
    simp only [List.filter_cons]
    cases hk : ((k1, v1).1 == p) with
    | true =>
      have hq : (q == k1) = false := by
        have : k1 = p := by simpa using hk
        simp [this, h]
      simp only [Bool.not_true, if_neg (by simp : ¬ (false = true))]
      rw [ih]
      simp [List.lookup, hq]
    | false =>
      simp only [Bool.not_false, if_pos rfl]
      cases hq : q == k1 <;> simp [List.lookup, hq, ih]

lemma fsRead_write_ne (fs : FS) (p q : String) (v : JVal) (h : q ≠ p) :
    fsRead (fsWrite fs p v) q = fsRead fs q := by
  have hb : (q == p) = false := by simp [h]
  simp only [fsRead, fsWrite, List.lookup, hb]
  exact lookup_filter_ne fs p q h

/-- Claim C9: `download_report` on a non-200 response raises an error
carrying the status code and the body text while writing no file; on
HTTP 200 it writes the full JSON payload to the known output path,
touches no other path, and returns that path. -/
theorem c9_theorem (resp : HttpResp) (fs : FS) :
    (resp.status ≠ 200 →
      download_report resp fs =
        (.error ("Error " ++ toString resp.status ++ ": " ++ resp.text), fs)) ∧
    (resp.status = 200 →
      (download_report resp fs).1 = .ok "trackman_full_report.json" ∧
      fsRead (download_report resp fs).2 "trackman_full_report.json" = some resp.body ∧
      ∀ p : String, p ≠ "trackman_full_report.json" →
        fsRead (download_report resp fs).2 p = fsRead fs p) := by
  constructor
  · intro h
    rw [download_report, if_neg h]
  · intro h
    rw [download_report, if_pos h]
    exact ⟨rfl, fsRead_write_self fs _ resp.body,
      fun p hp => fsRead_write_ne fs _ p resp.body hp⟩

/-- Claim C9 witness: a concrete 403 response errors with status and
body and leaves the file system unchanged; a concrete 200 response
writes the payload at the known path. -/
theorem c9_witness :
    ((403 : ℕ) ≠ 200 ∧
      download_report ⟨403, "forbidden", .null⟩ [] =
        (.error ("Error " ++ toString (403 : ℕ) ++ ": " ++ "forbidden"), []) ) ∧
    ((200 : ℕ) = 200 ∧
      fsRead (download_report ⟨200, "", .num 7⟩ []).2 "trackman_full_report.json" =
        some (.num 7)) :=
  ⟨⟨by decide, (c9_theorem ⟨403, "forbidden", .null⟩ []).1 (by decide)⟩,
   ⟨rfl, ((c9_theorem ⟨200, "", .num 7⟩ []).2 rfl).2.1⟩⟩

/-- Claim C10 counterexample: a dict whose `Time` field holds the
string `"zzz"` — a value that cannot be coerced to a number — yields
that string verbatim in the `Time` column, not an empty cell. -/
theorem c10_counterexample :
    rowGet (convert_measurement_to_row (some [("Time", JVal.str "zzz")])) "Time" =
      .str "zzz" ∧
    pyFloat (.str "zzz") = none ∧
    JVal.str "zzz" ≠ JVal.str "" := by
  refine ⟨rfl, rfl, fun h => ?_⟩
  injection h with hs
  exact absurd hs (by decide)

/-- Claim C10 as amended: `convert_measurement_to_row` is total over
`None` and dictionaries, always returning exactly the 31 schema keys in
order; a falsy measurement yields all 31 columns empty; in every column
other than `Time`, a field value that cannot be coerced to a number
yields an empty cell; the `Time` column instead passes nonempty
unparsable text through verbatim. -/
theorem c10_theorem :
    (∀ m : Option MDict, (convert_measurement_to_row m).map Prod.fst = COLUMNS) ∧
    (∀ m : Option MDict, m = none ∨ m = some [] →
      ∀ p ∈ convert_measurement_to_row m, p.2 = JVal.str "") ∧
    (∀ (l : MDict) (ck : String × String × ℚ), ck ∈ colSpec →
      pyFloat (mGet l ck.2.1) = none →
      rowGet (convert_measurement_to_row (some l)) ck.1 = .str "") ∧
    (∀ (l : MDict) (s : String), List.lookup "Time" l = some (.str s) → s ≠ "" →
      parseIso (replaceZ s) = none →
      rowGet (convert_measurement_to_row (some l)) "Time" = .str s) := by
  refine ⟨convert_map_fst, ?_, ?_, ?_⟩
  · rintro m (rfl | rfl) p hp <;>
    · simp only [convert_measurement_to_row, List.mem_map] at hp
      obtain ⟨k, _, rfl⟩ := hp
      rfl
  · intro l ck hck hnone
    rcases l with _ | ⟨a, t⟩
    · exact rowGet_emptyRow ck.1
    · rw [rowGet_conv a t ck hck]; exact _conv_pyFloat_none hnone
  · intro l s hl hs hp
    rcases l with _ | ⟨a, t⟩
    · simp at hl
    · rw [rowGet_time, hl]
      show JVal.str (_fmt_time s) = JVal.str s
      rw [_fmt_time, if_neg hs, hp]

/-- Claim C10 witness: the amended claim applied at concrete inputs —
an empty dict yields all-empty cells and a non-coercible numeric field
yields an empty cell. -/
theorem c10_witness :
    (some ([] : MDict) = none ∨ some ([] : MDict) = some [] →
      ∀ p ∈ convert_measurement_to_row (some []), p.2 = JVal.str "") ∧
    (("Smash Factor", "SmashFactor", (1 : ℚ)) ∈ colSpec ∧
      pyFloat (mGet [("SmashFactor", JVal.str "fast")] "SmashFactor") = none ∧
      rowGet (convert_measurement_to_row (some [("SmashFactor", JVal.str "fast")]))
        "Smash Factor" = .str "") := by
  have hmem : ("Smash Factor", "SmashFactor", (1 : ℚ)) ∈ colSpec := by simp [colSpec]
  exact ⟨c10_theorem.2.1 (some []), ⟨hmem, rfl, c10_theorem.2.2.1 _ _ hmem rfl⟩⟩

lemma listMin_le : ∀ (l : List ℚ) (j : ℕ) (hj : j < l.length), listMin l ≤ l.get ⟨j, hj⟩ := by
  intro l
  induction l with
  | nil => intro j hj; exact absurd hj (by simp)
  | cons x t ih =>
    intro j hj
    cases t with
    | nil =>
      have hj0 : j = 0 := Nat.lt_one_iff.mp (by simpa using hj)
      subst hj0
      exact le_refl x
    | cons y t2 =>
      cases j with
      | zero => exact min_le_left _ _
      | succ j2 =>
        exact le_trans (min_le_right _ _) (ih j2 (by simpa using hj))

lemma idxminPos_lt : ∀ l : List ℚ, l ≠ [] → idxminPos l < l.length := by
  intro l
  induction l with
  | nil => intro h; exact absurd rfl h
  | cons x t ih =>
    intro _
    cases t with
    | nil => exact Nat.zero_lt_one
    | cons y t2 =>
      by_cases hx : x ≤ listMin (y :: t2)
      · simp [idxminPos, hx]
      · simp only [idxminPos, if_neg hx, List.length_cons]
        exact Nat.succ_lt_succ (ih (by simp))

lemma get_idxminPos : ∀ (l : List ℚ) (hk : idxminPos l < l.length),
    l.get ⟨idxminPos l, hk⟩ = listMin l := by
  intro l
  induction l with
  | nil => intro hk; exact absurd hk (by simp)
  | cons x t ih =>
    intro hk
    cases t with
    | nil => rfl
    | cons y t2 =>
      by_cases hx : x ≤ listMin (y :: t2)
      · simp only [idxminPos, if_pos hx]
        show x = listMin (x :: y :: t2)
        rw [show listMin (x :: y :: t2) = min x (listMin (y :: t2)) from rfl,
          min_eq_left hx]
      · have hk2 : idxminPos (y :: t2) < (y :: t2).length := idxminPos_lt _ (by simp)
        simp only [idxminPos, if_neg hx]
        show (y :: t2).get ⟨idxminPos (y :: t2), hk2⟩ = listMin (x :: y :: t2)
        rw [ih hk2]
        show listMin (y :: t2) = min x (listMin (y :: t2))
        rw [min_eq_right (le_of_lt (not_le.mp hx))]

lemma listMin_lt_before : ∀ (l : List ℚ) (j : ℕ) (hj : j < idxminPos l) (hj2 : j < l.length),
    listMin l < l.get ⟨j, hj2⟩ := by
  intro l
  induction l with
  | nil => intro j hj hj2; exact absurd hj2 (by simp)
  | cons x t ih =>
    intro j hj hj2
    cases t with
    | nil => exact absurd hj (by simp [idxminPos])
    | cons y t2 =>
      by_cases hx : x ≤ listMin (y :: t2)
      · rw [idxminPos, if_pos hx] at hj
        exact absurd hj (by simp)
      · have hmin : listMin (x :: y :: t2) = listMin (y :: t2) := by
          show min x (listMin (y :: t2)) = listMin (y :: t2)
          exact min_eq_right (le_of_lt (not_le.mp hx))
        rw [idxminPos, if_neg hx] at hj
        cases j with
        | zero =>
          rw [hmin]
          exact not_le.mp hx
        | succ j2 =>
          rw [hmin]
          exact ih j2 (Nat.lt_of_succ_lt_succ hj) (by simpa using hj2)

lemma geOk_iff (x : Option ℚ) (b : ℚ) : geOk x b = true ↔ ∃ v, x = some v ∧ b ≤ v := by
  cases x <;> simp [geOk]

lemma absLe_iff (x : Option ℚ) (b : ℚ) : absLe x b = true ↔ ∃ v, x = some v ∧ |v| ≤ b := by
  cases x <;> simp [absLe]

/-- Claim C3: in `append_best_swings` a row qualifies exactly when
smash factor is at least 1.45 and the four absolute impact/path metrics
are within their bounds; with no qualifying row the sub-section is
omitted; otherwise exactly the first row minimizing the sum of the four
absolute metrics receives the border. -/
theorem c3_theorem :
    (∀ r : NRow, qualifies r = true ↔
      ((∃ v, nGet r "Smash Factor" = some v ∧ (1.45 : ℚ) ≤ v) ∧
       (∃ v, nGet r "Impact Height (mm)" = some v ∧ |v| ≤ 10) ∧
       (∃ v, nGet r "Impact Offset (mm)" = some v ∧ |v| ≤ 10) ∧
       (∃ v, nGet r "Club Path (Deg)" = some v ∧ |v| ≤ 4) ∧
       (∃ v, nGet r "Face Angle (Deg)" = some v ∧ |v| ≤ 2))) ∧
    (∀ rows : List Row, (rows.map coerceRow).filter qualifies = [] →
      append_best_swings rows = none) ∧
    (∀ (rows : List Row) (q : List NRow), q = (rows.map coerceRow).filter qualifies →
      q ≠ [] →
      ∃ hk : idxminPos (q.map distRow) < q.length,
        append_best_swings rows = some (q, idxminPos (q.map distRow)) ∧
        (∀ (j : ℕ) (hj : j < q.length),
          distRow (q.get ⟨idxminPos (q.map distRow), hk⟩) ≤ distRow (q.get ⟨j, hj⟩)) ∧
        (∀ (j : ℕ) (hj : j < idxminPos (q.map distRow)) (hj2 : j < q.length),
          distRow (q.get ⟨idxminPos (q.map distRow), hk⟩) < distRow (q.get ⟨j, hj2⟩))) := by
  refine ⟨?_, ?_, ?_⟩
  · intro r
    simp only [qualifies, Bool.and_eq_true, geOk_iff, absLe_iff]
    tauto
  · intro rows h
    by_cases hr : rows.isEmpty
    · simp [append_best_swings, hr]
    · simp [append_best_swings, hr, h]
  · intro rows q hq hne
    have hrows : rows.isEmpty = false := by
      rcases rows with _ | ⟨r0, rest⟩
      · exact absurd hq.symm (by simpa using hne)
      · rfl
    have hqe : q.isEmpty = false := by
      rcases q with _ | _
      · exact absurd rfl hne
      · rfl
    have hmlen : (q.map distRow).length = q.length := List.length_map _ _
    have hmne : q.map distRow ≠ [] := by
      rcases q with _ | _
      · exact absurd rfl hne
      · simp
    have hk0 : idxminPos (q.map distRow) < (q.map distRow).length := idxminPos_lt _ hmne
    have hk : idxminPos (q.map distRow) < q.length := by rwa [hmlen] at hk0
    refine ⟨hk, ?_, ?_, ?_⟩
    · rw [append_best_swings, if_neg (by simp [hrows])]
      simp only [← hq]
      rw [if_neg (by simp [hqe])]
    · intro j hj
      have h1 : distRow (q.get ⟨idxminPos (q.map distRow), hk⟩) =
          (q.map distRow).get ⟨idxminPos (q.map distRow), hk0⟩ := by
        simp [List.get_eq_getElem, List.getElem_map]
      have h2 : distRow (q.get ⟨j, hj⟩) =
          (q.map distRow).get ⟨j, by rwa [hmlen]⟩ := by
        simp [List.get_eq_getElem, List.getElem_map]
      rw [h1, h2, get_idxminPos _ hk0]
      exact listMin_le _ j _
    · intro j hj hj2
      have h1 : distRow (q.get ⟨idxminPos (q.map distRow), hk⟩) =
          (q.map distRow).get ⟨idxminPos (q.map distRow), hk0⟩ := by
        simp [List.get_eq_getElem, List.getElem_map]
      have h2 : distRow (q.get ⟨j, hj2⟩) =
          (q.map distRow).get ⟨j, by rwa [hmlen]⟩ := by
        simp [List.get_eq_getElem, List.getElem_map]
      rw [h1, h2, get_idxminPos _ hk0]
      exact listMin_lt_before _ j hj _

/-- First row of the best-swing tie scenario: metric sum 5. -/
def bw1 : Row := [("Smash Factor", JVal.num 1.5), ("Impact Height (mm)", JVal.num 2),
  ("Impact Offset (mm)", JVal.num 1), ("Club Path (Deg)", JVal.num 1),
  ("Face Angle (Deg)", JVal.num 1)]

/-- Second row of the best-swing tie scenario: metric sum 3.2. -/
def bw2 : Row := [("Smash Factor", JVal.num 1.5), ("Impact Height (mm)", JVal.num 1),
  ("Impact Offset (mm)", JVal.num 1), ("Club Path (Deg)", JVal.num 0.7),
  ("Face Angle (Deg)", JVal.num 0.5)]

/-- Third row of the best-swing tie scenario: metric sum 3.2 again. -/
def bw3 : Row := [("Smash Factor", JVal.num 1.6), ("Impact Height (mm)", JVal.num 1.2),
  ("Impact Offset (mm)", JVal.num 1), ("Club Path (Deg)", JVal.num 0.5),
  ("Face Angle (Deg)", JVal.num 0.5)]

lemma bw1_qual : qualifies (coerceRow bw1) = true := by
  show (decide ((1.45 : ℚ) ≤ 1.5) && decide (|(2 : ℚ)| ≤ 10) && decide (|(1 : ℚ)| ≤ 10) &&
    decide (|(1 : ℚ)| ≤ 4) && decide (|(1 : ℚ)| ≤ 2)) = true
  norm_num

lemma bw2_qual : qualifies (coerceRow bw2) = true := by
  show (decide ((1.45 : ℚ) ≤ 1.5) && decide (|(1 : ℚ)| ≤ 10) && decide (|(1 : ℚ)| ≤ 10) &&
    decide (|(0.7 : ℚ)| ≤ 4) && decide (|(0.5 : ℚ)| ≤ 2)) = true
  norm_num [abs_of_pos]

lemma bw3_qual : qualifies (coerceRow bw3) = true := by
  show (decide ((1.45 : ℚ) ≤ 1.6) && decide (|(1.2 : ℚ)| ≤ 10) && decide (|(1 : ℚ)| ≤ 10) &&
    decide (|(0.5 : ℚ)| ≤ 4) && decide (|(0.5 : ℚ)| ≤ 2)) = true
  norm_num [abs_of_pos]

lemma bw_filter_eq :
    (([bw1, bw2, bw3] : List Row).map coerceRow).filter qualifies =
      [coerceRow bw1, coerceRow bw2, coerceRow bw3] := by
  simp [List.filter_cons, bw1_qual, bw2_qual, bw3_qual]

lemma bw1_dist : distRow (coerceRow bw1) = 5 := by
  show |(2 : ℚ)| + |(1 : ℚ)| + |(1 : ℚ)| + |(1 : ℚ)| = 5
  norm_num

lemma bw2_dist : distRow (coerceRow bw2) = 3.2 := by
  show |(1 : ℚ)| + |(1 : ℚ)| + |(0.7 : ℚ)| + |(0.5 : ℚ)| = 3.2
  norm_num [abs_of_pos]

lemma bw3_dist : distRow (coerceRow bw3) = 3.2 := by
  show |(1.2 : ℚ)| + |(1 : ℚ)| + |(0.5 : ℚ)| + |(0.5 : ℚ)| = 3.2
  norm_num [abs_of_pos]

lemma bw_idx :
    idxminPos (([coerceRow bw1, coerceRow bw2, coerceRow bw3] : List NRow).map distRow) = 1 := by
  rw [show ([coerceRow bw1, coerceRow bw2, coerceRow bw3] : List NRow).map distRow =
    [distRow (coerceRow bw1), distRow (coerceRow bw2), distRow (coerceRow bw3)] from rfl]
  rw [bw1_dist, bw2_dist, bw3_dist]
  have hmin : listMin [(3.2 : ℚ), 3.2] = 3.2 := by
    show min (3.2 : ℚ) 3.2 = 3.2
    exact min_self _
  rw [idxminPos, hmin]
  rw [if_neg (by norm_num)]
  rw [idxminPos]
  rw [show listMin [(3.2 : ℚ)] = 3.2 from rfl, if_pos (le_refl _)]

/-- Claim C3 witness: the spec's tie scenario — three qualifying rows
with metric sums 5, 3.2 and 3.2 — flags the first row achieving the
minimal sum, the second row. -/
theorem c3_witness :
    (([bw1, bw2, bw3] : List Row).map coerceRow).filter qualifies =
      [coerceRow bw1, coerceRow bw2, coerceRow bw3] ∧
    append_best_swings [bw1, bw2, bw3] =
      some ([coerceRow bw1, coerceRow bw2, coerceRow bw3], 1) ∧
    distRow (coerceRow bw1) = 5 ∧ distRow (coerceRow bw2) = 3.2 ∧
    distRow (coerceRow bw3) = 3.2 := by
  obtain ⟨hk, happ, -, -⟩ :=
    c3_theorem.2.2 [bw1, bw2, bw3] [coerceRow bw1, coerceRow bw2, coerceRow bw3]
      bw_filter_eq.symm (by simp)
  rw [bw_idx] at happ
  exact ⟨bw_filter_eq, happ, bw1_dist, bw2_dist, bw3_dist⟩

lemma batchUpdate_length (f : ℕ → Option ReportMeta) :
    ∀ (order : List ℕ) (res : List (Option ReportMeta)),
      (batchUpdate f res order).length = res.length := by
  intro order
  induction order with
  | nil => intro res; rfl
  | cons j rest ih =>
    intro res
    show (batchUpdate f (res.set j (f j)) rest).length = res.length
    rw [ih, List.length_set]

lemma batchUpdate_notMem (f : ℕ → Option ReportMeta) :
    ∀ (order : List ℕ) (res : List (Option ReportMeta)) (i : ℕ), i ∉ order →
      (batchUpdate f res order)[i]? = res[i]? := by
  intro order
  induction order with
  | nil => intro res i _; rfl
  | cons j rest ih =>
    intro res i hi
    have hij : j ≠ i := fun h => hi (h ▸ List.mem_cons_self j rest)
    have hrest : i ∉ rest := fun h => hi (List.mem_cons_of_mem j h)
    show (batchUpdate f (res.set j (f j)) rest)[i]? = res[i]?
    rw [ih _ i hrest, List.getElem?_set_ne hij]

lemma batchUpdate_mem (f : ℕ → Option ReportMeta) :
    ∀ (order : List ℕ) (res : List (Option ReportMeta)) (i : ℕ), i ∈ order →
      i < res.length → (batchUpdate f res order)[i]? = some (f i) := by
  intro order
  induction order with
  | nil => intro res i hi _; exact absurd hi (by simp)
  | cons j rest ih =>
    intro res i hi hlen
    show (batchUpdate f (res.set j (f j)) rest)[i]? = some (f i)
    by_cases hr : i ∈ rest
    · exact ih _ i hr (by rwa [List.length_set])
    · have hij : i = j := by
        rcases List.mem_cons.mp hi with h | h
        · exact h
        · exact absurd h hr
      subst hij
      rw [batchUpdate_notMem f rest _ i hr]
      exact List.getElem?_set_eq_of_lt (f i) hlen

/-- Claim C4: for every network behaviour, identifier list and
completion order of the submitted futures, `fetch_report_metadata_batch`
returns exactly one entry per input identifier, and the entry at index
`i` is exactly the outcome of the metadata fetch for identifier `i` —
positional correspondence holds regardless of completion order, and a
failed fetch (a `none` outcome) occupies only its own slot. -/
theorem c4_theorem (net : String → Option (ℕ × JVal)) (ids : List String)
    (order : List ℕ) (hperm : order.Perm (List.range ids.length)) :
    (fetch_report_metadata_batch net ids order).length = ids.length ∧
    ∀ (i : ℕ) (hi : i < ids.length),
      (fetch_report_metadata_batch net ids order)[i]? =
        some (fetch_report_metadata net (ids.get ⟨i, hi⟩)) := by
  constructor
  · rw [fetch_report_metadata_batch, batchUpdate_length, List.length_replicate]
  · intro i hi
    have hmem : i ∈ order := hperm.mem_iff.mpr (List.mem_range.mpr hi)
    rw [fetch_report_metadata_batch,
      batchUpdate_mem _ order _ i hmem (by rwa [List.length_replicate])]
    have hids : ids[i]? = some (ids.get ⟨i, hi⟩) := by
      rw [List.getElem?_eq_getElem hi]
      rfl
    rw [hids]

/-- A concrete network oracle for the C4 witness: identifier `"a"`
succeeds, `"b"` raises, `"c"` returns HTTP 500. -/
def wnet : String → Option (ℕ × JVal) :=
  fun rid =>
    if rid = "a" then some (200, .obj [("Time", .str "t1")])
    else if rid = "b" then none
    else some (500, .null)

/-- Claim C4 witness: with completion order `[2, 0, 1]` — out of
submission order — the batch result still pairs each slot with its own
identifier's outcome, the failing slots holding `none`. -/
theorem c4_witness :
    ([2, 0, 1] : List ℕ).Perm (List.range 3) ∧
    (fetch_report_metadata_batch wnet ["a", "b", "c"] [2, 0, 1]).length = 3 ∧
    (fetch_report_metadata_batch wnet ["a", "b", "c"] [2, 0, 1])[0]? =
      some (some ⟨"a", .str "t1", .null⟩) ∧
    (fetch_report_metadata_batch wnet ["a", "b", "c"] [2, 0, 1])[1]? = some none ∧
    (fetch_report_metadata_batch wnet ["a", "b", "c"] [2, 0, 1])[2]? = some none := by
  have hperm : ([2, 0, 1] : List ℕ).Perm (List.range 3) := by decide
  obtain ⟨hlen, hidx⟩ := c4_theorem wnet ["a", "b", "c"] [2, 0, 1] hperm
  refine ⟨hperm, hlen, ?_, ?_, ?_⟩
  · rw [hidx 0 (by norm_num)]; rfl
  · rw [hidx 1 (by norm_num)]; rfl
  · rw [hidx 2 (by norm_num)]; rfl

lemma dedupAux_sublist : ∀ (rs : List Cand) (seen : List String),
    List.Sublist (dedupAux seen rs) rs := by
  intro rs
  induction rs with
  | nil => intro seen; exact List.Sublist.refl []
  | cons r rest ih =>
    intro seen
    by_cases h : r.id ≠ "" ∧ r.id ∉ seen
    · rw [dedupAux, if_pos h]
      exact (ih (r.id :: seen)).cons₂ r
    · rw [dedupAux, if_neg h]
      exact (ih seen).cons r

lemma dedupAux_eq_firstOccs : ∀ (rs : List Cand), (∀ r ∈ rs, r.id ≠ "") →
    ∀ seen : List String,
      dedupAux seen rs = firstOccs (rs.filter (fun x => x.id ∉ seen)) := by
  intro rs
  induction rs with
  | nil =>
    intro _ seen
    show ([] : List Cand) = firstOccs []
    rw [firstOccs]
  | cons r rest ih =>
    intro hAll seen
    have hr : r.id ≠ "" := hAll r (List.mem_cons_self r rest)
    have hAll2 : ∀ x ∈ rest, x.id ≠ "" := fun x hx => hAll x (List.mem_cons_of_mem r hx)
    by_cases hseen : r.id ∈ seen
    · rw [dedupAux, if_neg (fun hc => hc.2 hseen)]
      rw [show (r :: rest).filter (fun x => decide (x.id ∉ seen)) =
        rest.filter (fun x => decide (x.id ∉ seen)) from by
          simp [List.filter_cons, hseen]]
      exact ih hAll2 seen
    · rw [dedupAux, if_pos ⟨hr, hseen⟩]
      rw [show (r :: rest).filter (fun x => decide (x.id ∉ seen)) =
        r :: rest.filter (fun x => decide (x.id ∉ seen)) from by
          simp [List.filter_cons, hseen]]
      rw [firstOccs]
      congr 1
      rw [ih hAll2 (r.id :: seen), List.filter_filter]
      congr 1
      apply List.filter_congr
      intro x _
      by_cases h1 : x.id = r.id <;> by_cases h2 : x.id ∈ seen <;>
        simp [h1, h2, List.mem_cons]

lemma firstOccs_sublist_aux : ∀ l : List Cand, List.Sublist (firstOccs l) l := by
  intro l
  induction l using firstOccs.induct with
  | case1 => rw [firstOccs]
  | case2 r rest ih =>
    rw [firstOccs]
    exact ((ih.trans (List.filter_sublist rest)).cons₂ r)

lemma firstOccs_pairwise : ∀ l : List Cand,
    (firstOccs l).Pairwise (fun a b => a.id ≠ b.id) := by
  intro l
  induction l using firstOccs.induct with
  | case1 =>
    rw [firstOccs]
    exact List.Pairwise.nil
  | case2 r rest ih =>
    rw [firstOccs]
    refine List.Pairwise.cons ?_ ih
    intro b hb
    have hsub : List.Sublist (firstOccs (rest.filter (fun x => x.id ≠ r.id)))
        (rest.filter (fun x => x.id ≠ r.id)) := by
      have := firstOccs_sublist_aux (rest.filter (fun x => x.id ≠ r.id))
      exact this
    have hbmem : b ∈ rest.filter (fun x => x.id ≠ r.id) := hsub.mem hb
    have : (decide (b.id ≠ r.id)) = true := (List.mem_filter.mp hbmem).2
    intro hid
    rw [hid] at this
    simp at this

/-- Claim C8: the candidate deduplication of `handle_cloud` keeps
exactly the first occurrence of each identifier (comparison by
identifier only), removes a candidate exactly when an earlier one
carries the same identifier, and preserves the relative order of the
retained candidates — provided every candidate carries a (nonempty)
identifier, as every discovered candidate does. -/
theorem c8_theorem (rs : List Cand) (h : ∀ r ∈ rs, r.id ≠ "") :
    handle_cloud_dedup rs = firstOccs rs ∧
    List.Sublist (handle_cloud_dedup rs) rs ∧
    (handle_cloud_dedup rs).Pairwise (fun a b => a.id ≠ b.id) := by
  have heq : handle_cloud_dedup rs = firstOccs rs := by
    rw [handle_cloud_dedup, dedupAux_eq_firstOccs rs h []]
    congr 1
    apply List.filter_eq_self.mpr
    intro a _
    simp
  exact ⟨heq, dedupAux_sublist rs [], heq ▸ firstOccs_pairwise rs⟩

/-- Claim C8 witness: two candidates sharing an identifier but carrying
different URLs collapse to the first occurrence, other candidates and
their order untouched. -/
theorem c8_witness :
    (∀ r ∈ ([⟨"id1", "u1", 5⟩, ⟨"id2", "u2", 4⟩, ⟨"id1", "u3", 3⟩] : List Cand),
      r.id ≠ "") ∧
    handle_cloud_dedup [⟨"id1", "u1", 5⟩, ⟨"id2", "u2", 4⟩, ⟨"id1", "u3", 3⟩] =
      firstOccs [⟨"id1", "u1", 5⟩, ⟨"id2", "u2", 4⟩, ⟨"id1", "u3", 3⟩] ∧
    handle_cloud_dedup [⟨"id1", "u1", 5⟩, ⟨"id2", "u2", 4⟩, ⟨"id1", "u3", 3⟩] =
      [⟨"id1", "u1", 5⟩, ⟨"id2", "u2", 4⟩] := by
  refine ⟨by decide, (c8_theorem _ (by decide)).1, by decide⟩

lemma pyIter_orEmpty_arr (xs : List JVal) : pyIter (orEmptyList (.arr xs)) = .ok xs := by
  cases xs <;> simp [orEmptyList, truthy, pyIter]

lemma strokeRows_wf : ∀ ss : List JVal, (∀ s ∈ ss, isObjB s = true) →
    strokeRows ss = .ok (ss.filterMap usableOfStroke) := by
  intro ss
  induction ss with
  | nil => intro _; rfl
  | cons s rest ih =>
    intro hall
    have hs : isObjB s = true := hall s (List.mem_cons_self s rest)
    have hrest : ∀ x ∈ rest, isObjB x = true := fun x hx => hall x (List.mem_cons_of_mem s hx)
    rcases s with _ | b | q | st | xs | skvs <;> simp [isObjB] at hs
    cases hv : (List.lookup "Measurement" skvs).getD JVal.null <;>
      simp [strokeRows, objGetD, hv, List.filterMap_cons, usableOfStroke, ih hrest,
        Except.map]

lemma groupSheet_wf (g : JVal) (h : wfGroup g = true) :
    groupSheet g = .ok (sheetOfGroup g) := by
  rcases g with _ | b | q | st | xs | kvs
  · simp [wfGroup] at h
  · simp [wfGroup] at h
  · simp [wfGroup] at h
  · simp [wfGroup] at h
  · simp [wfGroup] at h
  by_cases ht : truthy ((List.lookup "Strokes" kvs).getD (.arr [])) = true
  · rw [wfGroup.eq_def] at h
    dsimp only at h
    rw [if_pos ht] at h
    obtain ⟨ss, hv, hall⟩ : ∃ ss, (List.lookup "Strokes" kvs).getD (.arr []) = JVal.arr ss ∧
        ∀ s ∈ ss, isObjB s = true := by
      rcases hx : (List.lookup "Strokes" kvs).getD (.arr []) with _ | b | q | st | ss | skvs <;>
        rw [hx] at h <;> simp at h
      exact ⟨_, rfl, h⟩
    rw [hv] at ht
    have hstrokes : strokesOf (.obj kvs) = ss := by
      simp only [strokesOf]
      rw [hv, if_pos ht]
    have husable : usableRows (.obj kvs) = ss.filterMap usableOfStroke := by
      simp only [usableRows]
      rw [hstrokes]
    have hsheet : sheetOfGroup (.obj kvs) =
        mkGroupSheet (pyStr ((List.lookup "Club" kvs).getD (.str "Unknown Club")))
          (ss.filterMap usableOfStroke) := by
      simp only [sheetOfGroup, clubValOf]
      rw [husable]
    simp only [groupSheet, objGetD]
    rw [hv]
    have horE : orEmptyList (JVal.arr ss) = JVal.arr ss := by
      simp only [orEmptyList]
      rw [if_pos ht]
    rw [horE]
    simp only [pyIter]
    rw [strokeRows_wf ss hall, hsheet]
  · have ht2 : ¬ (truthy ((List.lookup "Strokes" kvs).getD (.arr [])) = true) := ht
    have hstrokes : strokesOf (.obj kvs) = [] := by
      simp only [strokesOf]
      rw [if_neg ht2]
    have husable : usableRows (.obj kvs) = [] := by
      simp only [usableRows]
      rw [hstrokes]
      rfl
    have hsheet : sheetOfGroup (.obj kvs) =
        mkGroupSheet (pyStr ((List.lookup "Club" kvs).getD (.str "Unknown Club"))) [] := by
      simp only [sheetOfGroup, clubValOf]
      rw [husable]
    have horE : orEmptyList ((List.lookup "Strokes" kvs).getD (.arr [])) = JVal.arr [] := by
      simp only [orEmptyList]
      rw [if_neg ht2]
    simp only [groupSheet, objGetD]
    rw [horE]
    simp only [pyIter]
    rw [hsheet]
    rfl

lemma buildSheets_wf : ∀ gs : List JVal, gs.all wfGroup = true →
    buildSheets gs = .ok (gs.map sheetOfGroup) := by
  intro gs
  induction gs with
  | nil => intro _; rfl
  | cons g rest ih =>
    intro hall
    rw [List.all_cons, Bool.and_eq_true] at hall
    rw [buildSheets, groupSheet_wf g hall.1, ih hall.2]
    rfl

lemma rows_sheetOfGroup (g : JVal) : (sheetOfGroup g).rows = usableRows g := by
  rw [sheetOfGroup, mkGroupSheet]
  by_cases h : (usableRows g).isEmpty
  · rw [if_pos h]
    exact (List.isEmpty_iff.mp h).symm
  · rw [if_neg h]

lemma title_sheetOfGroup (g : JVal) :
    (sheetOfGroup g).title = (pyStr (clubValOf g)).take 31 := by
  rw [sheetOfGroup, mkGroupSheet]
  by_cases h : (usableRows g).isEmpty
  · rw [if_pos h]
  · rw [if_neg h]

lemma note_sheetOfGroup (g : JVal) : (sheetOfGroup g).note = none := by
  rw [sheetOfGroup, mkGroupSheet]
  by_cases h : (usableRows g).isEmpty
  · rw [if_pos h]
  · rw [if_neg h]

/-- The rows every group contributes to the aggregate sheet, in
group-then-stroke order. -/
def allRowsOf (gs : List JVal) : List Row :=
  (gs.map usableRows).flatten

lemma map_rows_sheetOf (gs : List JVal) :
    ((gs.map sheetOfGroup).map Sheet.rows).flatten = allRowsOf gs := by
  rw [List.map_map, allRowsOf]
  congr 1
  apply List.map_congr_left
  intro g _
  exact rows_sheetOfGroup g

lemma build_wf (kvs : List (String × JVal)) (gs : List JVal)
    (hs : List.lookup "StrokeGroups" kvs = some (.arr gs))
    (hwf : gs.all wfGroup = true) :
    build_workbook_per_club (.obj kvs) =
      .ok (gs.map sheetOfGroup ++
        [if (allRowsOf gs).isEmpty then placeholderSheet
         else ⟨"All Data", allRowsOf gs, none, none⟩]) := by
  have h1 : objGetD (.obj kvs) "StrokeGroups" (.arr []) = .ok (.arr gs) := by
    simp [objGetD, hs]
  rw [build_workbook_per_club]
  rw [h1]
  show (match pyIter (orEmptyList (.arr gs)) with
    | Except.error e => Except.error e
    | Except.ok groups =>
      match buildSheets groups with
      | Except.error e => Except.error e
      | Except.ok sheets =>
        let allRows := (sheets.map Sheet.rows).flatten
        if allRows.isEmpty then Except.ok (sheets ++ [placeholderSheet])
        else Except.ok (sheets ++ [Sheet.mk "All Data" allRows none none])) = _
  rw [pyIter_orEmpty_arr]
  show (match buildSheets gs with
    | Except.error e => Except.error e
    | Except.ok sheets =>
      let allRows := (sheets.map Sheet.rows).flatten
      if allRows.isEmpty then Except.ok (sheets ++ [placeholderSheet])
      else Except.ok (sheets ++ [Sheet.mk "All Data" allRows none none])) = _
  rw [buildSheets_wf gs hwf]
  show (let allRows := ((gs.map sheetOfGroup).map Sheet.rows).flatten
    if allRows.isEmpty then Except.ok (gs.map sheetOfGroup ++ [placeholderSheet])
    else Except.ok (gs.map sheetOfGroup ++ [Sheet.mk "All Data" allRows none none])) = _
  rw [show ((gs.map sheetOfGroup).map Sheet.rows).flatten = allRowsOf gs from
    map_rows_sheetOf gs]
  by_cases h : (allRowsOf gs).isEmpty
  · rw [if_pos h, if_pos h]
  · rw [if_neg h, if_neg h]

lemma build_falsy (kvs : List (String × JVal))
    (h : truthy ((List.lookup "StrokeGroups" kvs).getD (.arr [])) = false) :
    build_workbook_per_club (.obj kvs) = .ok [placeholderSheet] := by
  rw [build_workbook_per_club]
  show (match pyIter (orEmptyList ((List.lookup "StrokeGroups" kvs).getD (.arr []))) with
    | Except.error e => Except.error e
    | Except.ok groups =>
      match buildSheets groups with
      | Except.error e => Except.error e
      | Except.ok sheets =>
        let allRows := (sheets.map Sheet.rows).flatten
        if allRows.isEmpty then Except.ok (sheets ++ [placeholderSheet])
        else Except.ok (sheets ++ [Sheet.mk "All Data" allRows none none])) = _
  rw [show orEmptyList ((List.lookup "StrokeGroups" kvs).getD (.arr [])) = JVal.arr []
    from by simp only [orEmptyList]; rw [if_neg (by simp [h])]]
  rfl

lemma build_ok_ne_nil (data : JVal) (sheets : List Sheet)
    (h : build_workbook_per_club data = .ok sheets) : sheets ≠ [] := by
  unfold build_workbook_per_club at h
  cases h1 : objGetD data "StrokeGroups" (.arr []) with
  | error e => rw [h1] at h; dsimp only at h; exact Except.noConfusion h
  | ok sgV =>
    rw [h1] at h
    dsimp only at h
    cases h2 : pyIter (orEmptyList sgV) with
    | error e => rw [h2] at h; dsimp only at h; exact Except.noConfusion h
    | ok groups =>
      rw [h2] at h
      dsimp only at h
      cases h3 : buildSheets groups with
      | error e => rw [h3] at h; dsimp only at h; exact Except.noConfusion h
      | ok ss =>
        rw [h3] at h
        dsimp only at h
        split at h <;>
        · rw [Except.ok.injEq] at h
          subst h
          simp

/-- The payload of the C1 scenario: the Driver group's first stroke,
with a usable measurement. -/
def wStroke1 : JVal := .obj [("Measurement", .obj [("BallSpeed", .num 50)])]

/-- The Driver group's second stroke, with a usable measurement. -/
def wStroke2 : JVal := .obj [("Measurement", .obj [("BallSpeed", .num 60)])]

/-- The Driver group's third stroke: an empty measurement, skipped. -/
def wStroke3 : JVal := .obj [("Measurement", .null)]

/-- The `"Driver"` group of the scenario: three strokes, two usable. -/
def wDriver : JVal := .obj [("Club", .str "Driver"), ("Strokes", .arr [wStroke1, wStroke2, wStroke3])]

/-- The `"7 Iron"` group of the scenario: zero strokes. -/
def wIron : JVal := .obj [("Club", .str "7 Iron"), ("Strokes", .arr [])]

/-- The key-value list of the scenario payload. -/
def wKvs : List (String × JVal) := [("StrokeGroups", JVal.arr [wDriver, wIron])]

/-- The scenario payload: groups `"Driver"` (2 usable measurements) and
`"7 Iron"` (0 strokes). -/
def wScenario : JVal := .obj wKvs

set_option maxRecDepth 4000 in
/-- Claim C1 counterexample: the claim's own scenario — groups
`"Driver"` (2 usable measurements) and `"7 Iron"` (0 strokes) — yields
THREE sheets `"Driver"`, `"7 Iron"`, `"All Data"` (with 2, 0 and 2 data
rows), not the claimed two: the sheet is created before the
zero-usable-rows check, and the `continue` never removes it. -/
theorem c1_counterexample :
    sheetTitles (build_workbook_per_club wScenario) = ["Driver", "7 Iron", "All Data"] ∧
    sheetRowCounts (build_workbook_per_club wScenario) = [2, 0, 2] ∧
    ["Driver", "7 Iron", "All Data"] ≠ ["Driver", "All Data"] :=
  ⟨by decide, by decide, by decide⟩

/-- Claim C1 as amended: for every well-formed payload,
`build_workbook_per_club` emits one sheet per StrokeGroup regardless of
usable measurements — a group with at least one usable measurement gets
its converted rows, while a group with zero usable measurements still
contributes an (empty) sheet rather than no sheet — plus one final
sheet (aggregate or placeholder). -/
theorem c1_theorem (kvs : List (String × JVal)) (gs : List JVal)
    (hs : List.lookup "StrokeGroups" kvs = some (.arr gs))
    (hwf : gs.all wfGroup = true) :
    ∃ sheets, build_workbook_per_club (.obj kvs) = .ok sheets ∧
      sheets.length = gs.length + 1 ∧
      ∀ (i : ℕ) (hi : i < gs.length) (hi2 : i < sheets.length),
        (sheets.get ⟨i, hi2⟩).title = (pyStr (clubValOf (gs.get ⟨i, hi⟩))).take 31 ∧
        (sheets.get ⟨i, hi2⟩).rows = usableRows (gs.get ⟨i, hi⟩) := by
  refine ⟨_, build_wf kvs gs hs hwf, ?_, ?_⟩
  · rw [List.length_append, List.length_map, List.length_cons, List.length_nil]
  · intro i hi hi2
    have hlt : i < (gs.map sheetOfGroup).length := by rwa [List.length_map]
    have hget : (gs.map sheetOfGroup ++
        [if (allRowsOf gs).isEmpty then placeholderSheet
         else ⟨"All Data", allRowsOf gs, none, none⟩]).get ⟨i, hi2⟩ =
        sheetOfGroup (gs.get ⟨i, hi⟩) := by
      rw [List.get_eq_getElem, List.getElem_append_left hlt, List.getElem_map]
      rfl
    rw [hget]
    exact ⟨title_sheetOfGroup _, rows_sheetOfGroup _⟩

/-- Claim C1 witness: the amended claim applied to the concrete
scenario payload — both groups are well-formed, and the workbook
carries one sheet per group plus the final sheet. -/
theorem c1_witness :
    List.lookup "StrokeGroups" wKvs = some (JVal.arr [wDriver, wIron]) ∧
    ([wDriver, wIron] : List JVal).all wfGroup = true ∧
    ∃ sheets, build_workbook_per_club (.obj wKvs) = .ok sheets ∧
      sheets.length = ([wDriver, wIron] : List JVal).length + 1 ∧
      ∀ (i : ℕ) (hi : i < ([wDriver, wIron] : List JVal).length) (hi2 : i < sheets.length),
        (sheets.get ⟨i, hi2⟩).title =
          (pyStr (clubValOf (([wDriver, wIron] : List JVal).get ⟨i, hi⟩))).take 31 ∧
        (sheets.get ⟨i, hi2⟩).rows = usableRows (([wDriver, wIron] : List JVal).get ⟨i, hi⟩) :=
  ⟨rfl, by decide, c1_theorem wKvs [wDriver, wIron] rfl (by decide)⟩

/-- Claim C2 counterexample: a payload whose top level is a JSON array
rather than an object — a malformed top-level report structure — makes
`build_workbook_per_club` raise an `AttributeError` at `data.get`
instead of returning the placeholder workbook. -/
theorem c2_counterexample :
    build_workbook_per_club (JVal.arr []) = .error .attrError ∧
    ∀ sheets : List Sheet, build_workbook_per_club (JVal.arr []) ≠ .ok sheets :=
  ⟨rfl, fun _ h => Except.noConfusion h⟩

/-- Claim C2 as amended: an object payload lacking the `StrokeGroups`
key (or holding a falsy value there) yields exactly the one placeholder
sheet without raising; an object payload whose well-formed groups carry
no usable measurement anywhere yields one empty sheet per group plus
exactly one placeholder sheet; every successful build is nonempty; but
a payload whose top level is not an object raises instead of degrading
to the placeholder. -/
theorem c2_theorem :
    (∀ kvs : List (String × JVal),
      truthy ((List.lookup "StrokeGroups" kvs).getD (.arr [])) = false →
      build_workbook_per_club (.obj kvs) = .ok [placeholderSheet]) ∧
    (∀ (kvs : List (String × JVal)) (gs : List JVal),
      List.lookup "StrokeGroups" kvs = some (.arr gs) → gs.all wfGroup = true →
      (∀ g ∈ gs, usableRows g = []) →
      build_workbook_per_club (.obj kvs) =
        .ok (gs.map sheetOfGroup ++ [placeholderSheet]) ∧
      ((gs.map sheetOfGroup ++ [placeholderSheet]).filter isPlaceholder).length = 1 ∧
      ∀ s ∈ gs.map sheetOfGroup, s.rows = [] ∧ isPlaceholder s = false) ∧
    (∀ (data : JVal) (sheets : List Sheet),
      build_workbook_per_club data = .ok sheets → sheets ≠ []) ∧
    build_workbook_per_club (JVal.arr []) = .error .attrError := by
  refine ⟨build_falsy, ?_, build_ok_ne_nil, rfl⟩
  intro kvs gs hs hwf husable
  have hall : allRowsOf gs = [] := by
    rw [allRowsOf]
    apply List.flatten_eq_nil_iff.mpr
    intro l hl
    obtain ⟨g, hg, rfl⟩ := List.mem_map.mp hl
    exact husable g hg
  have hempty : (allRowsOf gs).isEmpty = true := by rw [hall]; rfl
  have hmain : build_workbook_per_club (.obj kvs) =
      .ok (gs.map sheetOfGroup ++ [placeholderSheet]) := by
    rw [build_wf kvs gs hs hwf, if_pos hempty]
  have hnotes : ∀ s ∈ gs.map sheetOfGroup, s.rows = [] ∧ isPlaceholder s = false := by
    intro s hsm
    obtain ⟨g, hg, rfl⟩ := List.mem_map.mp hsm
    constructor
    · rw [rows_sheetOfGroup]; exact husable g hg
    · rw [isPlaceholder, note_sheetOfGroup]; rfl
  refine ⟨hmain, ?_, hnotes⟩
  rw [List.filter_append]
  rw [show (gs.map sheetOfGroup).filter isPlaceholder = [] from
    List.filter_eq_nil_iff.mpr (fun s hsm => by simp [(hnotes s hsm).2])]
  rfl

/-- Claim C2 witness: the amended claim applied at concrete inputs — an
object payload without the `StrokeGroups` key degrades to exactly the
placeholder sheet, and a payload whose single group has zero strokes
yields that group's empty sheet plus the placeholder. -/
theorem c2_witness :
    (truthy ((List.lookup "StrokeGroups" [("Foo", JVal.null)]).getD (.arr [])) = false ∧
      build_workbook_per_club (.obj [("Foo", JVal.null)]) = .ok [placeholderSheet]) ∧
    build_workbook_per_club (.obj [("StrokeGroups", JVal.arr [wIron])]) =
      .ok ([wIron].map sheetOfGroup ++ [placeholderSheet]) := by
  refine ⟨⟨by decide, c2_theorem.1 _ (by decide)⟩, ?_⟩
  have h := c2_theorem.2.1 [("StrokeGroups", JVal.arr [wIron])] [wIron] rfl (by decide)
    (by intro g hg; rw [List.mem_singleton] at hg; subst hg; rfl)
  exact h.1

end Trackman
